import Mathlib

/-!
# Verification of the parchment-landing server endpoints and globe texture loading

Shallow embedding of the repository's server code:

* `server/api/waitlist.post.ts` — the waitlist POST handler (in-memory
  submissions list, email normalization and regex validation);
* `server/api/auth-status.get.ts` — the auth-status GET handler;
* the AB-variant server middleware (sets an `ab_variant` cookie on first visit);
* the texture-loading call sites of the two HeroGlobe components.

JavaScript semantics that the code relies on are made explicit:
string truthiness (the empty string is falsy), `String.prototype.trim`,
ASCII lowercasing, `x || d` defaulting, and the regex `/^\S+@\S+\.\S+$/`.
Cookies and request bodies are passed as explicit `Option String` values;
randomness (`Math.random() < 0.5`) is passed as a `Bool` parameter.
-/

/-- JavaScript whitespace (the `\s` regex class, and the character set removed
by `String.prototype.trim`): tab, LF, VT, FF, CR, space, NBSP, Ogham space
mark, the U+2000–U+200A range, LS, PS, NNBSP, MMSP, ideographic space, BOM. -/
def jsIsWhitespace (c : Char) : Bool :=
  let n := c.toNat
  n == 9 || n == 10 || n == 11 || n == 12 || n == 13 || n == 32 ||
  n == 160 || n == 5760 || (decide (8192 ≤ n) && decide (n ≤ 8202)) ||
  n == 8232 || n == 8233 || n == 8239 || n == 8287 || n == 12288 || n == 65279

/-- JavaScript truthiness of a possibly-undefined string: `undefined` and the
empty string are falsy, every other string is truthy. -/
def jsTruthy : Option String → Bool
  | none => false
  | some s => !(s == "")

/-- `x || d` on a possibly-undefined string: the default is taken when the
value is `undefined` or the empty string (both falsy). -/
def jsOrDefault (v : Option String) (d : String) : String :=
  match v with
  | some s => if s == "" then d else s
  | none => d

/-- `x || undefined` on a possibly-undefined string: collapses the falsy
empty string to `undefined`. -/
def jsOrUndefined (v : Option String) : Option String :=
  match v with
  | some s => if s == "" then none else some s
  | none => none

/-- `String.prototype.trim` on a character list: drop JS whitespace from both
ends. -/
def jsTrimList (l : List Char) : List Char :=
  ((l.dropWhile jsIsWhitespace).reverse.dropWhile jsIsWhitespace).reverse

/-- `String.prototype.trim`. -/
def jsTrim (s : String) : String :=
  String.mk (jsTrimList s.toList)

/-- `String.prototype.toLowerCase` on one character (ASCII range, the only
range the validated emails exercise): code points 65–90 shift to 97–122. -/
def jsCharToLower (c : Char) : Char :=
  if decide (65 ≤ c.toNat) && decide (c.toNat ≤ 90) then
    Char.ofNat (c.toNat + 32)
  else c

/-- `String.prototype.toLowerCase`. -/
def jsToLowerCase (s : String) : String :=
  String.mk (s.toList.map jsCharToLower)

/-- The test of the anchored regex `/^\S+@\S+\.\S+$/` from
`server/api/waitlist.post.ts`, on a character list.  The regex matches exactly
the all-non-whitespace strings that factor as `x ++ "@" ++ y ++ "." ++ z` with
`x`, `y`, `z` nonempty; executably: no character is JS whitespace, and some
position `i ≥ 1` holds a literal at-sign while some position `j` with
`i + 2 ≤ j ≤ length - 2` holds a literal dot (`\S` also matches at-signs and
dots, so `x`, `y`, `z` may themselves contain them). -/
def emailMatchList (l : List Char) : Bool :=
  l.all (fun c => !jsIsWhitespace c) &&
  (List.range l.length).any (fun i =>
    (List.range l.length).any (fun j =>
      decide (1 ≤ i) && decide (i + 2 ≤ j) && decide (j + 2 ≤ l.length) &&
      (l.getD i ' ' == '@') && (l.getD j ' ' == '.')))

/-- `/^\S+@\S+\.\S+$/.test s`. -/
def matchesEmailRegex (s : String) : Bool :=
  emailMatchList s.toList

/-! ## `server/api/waitlist.post.ts` -/

/-- One element of the module-level `submissions` array. -/
structure Submission where
  email : String
  variant : String
  ts : String
  ip : Option String
deriving DecidableEq

/-- The request body `{ email?: string; variant?: "A" | "B" }` as read by
`readBody`.  `readBody` performs no runtime validation, so the variant is an
arbitrary possibly-absent string at runtime. -/
structure WaitlistBody where
  email : Option String
  variant : Option String
deriving DecidableEq

/-- The success return value `{ ok: true, message: ... }`. -/
structure OkResponse where
  ok : Bool
  message : String
deriving DecidableEq

/-- The argument of `createError`. -/
structure ErrorResponse where
  statusCode : Nat
  statusMessage : String
  message : String
deriving DecidableEq

deriving instance DecidableEq for Except

/-- `body?.email?.trim().toLowerCase()` — `undefined` when the body or its
email field is absent. -/
def normalizedEmail (body : Option WaitlistBody) : Option String :=
  (body.bind (fun b => b.email)).map (fun e => jsToLowerCase (jsTrim e))

/-- The waitlist POST handler.  Inputs: the parsed request body (possibly
absent), `getRequestIP event`, and the current timestamp `new
Date().toISOString()`; state: the `submissions` array.  Output: the updated
array paired with either the success body or the thrown 400 error.  The
`throw createError` happens before `submissions.push`, so on error the array
is returned unchanged. -/
def waitlistHandler (body : Option WaitlistBody) (requestIP : Option String)
    (now : String) (submissions : List Submission) :
    List Submission × Except ErrorResponse OkResponse :=
  let variant : String := jsOrDefault (body.bind (fun b => b.variant)) "A"
  match normalizedEmail body with
  | none => (submissions, Except.error ⟨400, "Invalid email", "Invalid email"⟩)
  | some email =>
    if email == "" || !matchesEmailRegex email then
      (submissions, Except.error ⟨400, "Invalid email", "Invalid email"⟩)
    else
      (submissions ++ [⟨email, variant, now, jsOrUndefined requestIP⟩],
       Except.ok ⟨true, "Thanks! We will be in touch soon."⟩)

/-- States of the `submissions` array reachable from the initial empty array
by any sequence of waitlist requests. -/
inductive ReachableSubs : List Submission → Prop where
  | init : ReachableSubs []
  | step (body : Option WaitlistBody) (requestIP : Option String) (now : String)
      {st : List Submission} (h : ReachableSubs st) :
      ReachableSubs (waitlistHandler body requestIP now st).1

/-! ## `server/api/auth-status.get.ts` -/

/-- The `{ id: "user_123" }` object. -/
structure AuthUser where
  id : String
deriving DecidableEq

/-- The auth-status response body. -/
structure AuthStatusResponse where
  authenticated : Bool
  user : Option AuthUser
deriving DecidableEq

/-- The auth-status GET handler.  Input: `getCookie(event, "session")` —
`some v` when a `session` cookie with value `v` is on the request, `none`
otherwise.  `Boolean(session)` and the conditional `session ? _ : null` use
JS truthiness, so an empty-valued cookie counts as absent. -/
def authStatusHandler (session : Option String) : AuthStatusResponse :=
  { authenticated := jsTruthy session,
    user := if jsTruthy session then some ⟨"user_123"⟩ else none }

/-! ## AB-variant server middleware -/

/-- The options object passed to `setCookie`. -/
structure CookieOptions where
  httpOnly : Bool
  sameSite : String
  path : String
  maxAge : Nat
deriving DecidableEq

/-- A recorded `setCookie` call. -/
structure SetCookieCall where
  name : String
  value : String
  options : CookieOptions
deriving DecidableEq

/-- The AB-variant middleware.  Inputs: `getCookie(event, "ab_variant")` and
the coin flip `Math.random() < 0.5` (`true` rolls "A", `false` rolls "B").
Output: the `setCookie` call it performs, if any.  `if (!existing)` uses JS
truthiness, so the roll-and-set branch also runs when the cookie is present
with an empty value. -/
def abVariantMiddleware (existing : Option String) (roll : Bool) :
    Option SetCookieCall :=
  if jsTruthy existing then none
  else
    some ⟨"ab_variant", if roll then "A" else "B",
          ⟨false, "lax", "/", 60 * 60 * 24 * 365⟩⟩

/-! ## HeroGlobe texture loading -/

/-- What a `loader.load` call site does when the requested asset fails to
load: nothing (no `onError` callback), log a warning, log a warning and
substitute a procedurally generated texture, or try the next candidate path
with its own failure behaviour. -/
inductive FallbackBehaviour where
  | silent : FallbackBehaviour
  | warn (msg : String) : FallbackBehaviour
  | warnProcedural (msg : String) : FallbackBehaviour
  | tryNext (url : String) (next : FallbackBehaviour) : FallbackBehaviour
deriving DecidableEq

/-- One texture slot: the first candidate path and the failure behaviour. -/
structure TextureLoad where
  slot : String
  url : String
  onError : FallbackBehaviour
deriving DecidableEq

/-- Outcome of running a texture-load chain: the texture obtained (an asset
path, or "procedural" for the generated clouds), and the warnings logged. -/
structure LoadResult where
  texture : Option String
  warnings : List String
deriving DecidableEq

/-- Run a texture-load chain against an asset availability predicate. -/
def runLoad (avail : String → Bool) : String → FallbackBehaviour → LoadResult
  | url, fb =>
    if avail url then { texture := some url, warnings := [] }
    else
      match fb with
      | FallbackBehaviour.silent => { texture := none, warnings := [] }
      | FallbackBehaviour.warn m => { texture := none, warnings := [m] }
      | FallbackBehaviour.warnProcedural m =>
          { texture := some "procedural", warnings := [m] }
      | FallbackBehaviour.tryNext u next => runLoad avail u next

/-- The `loader.load` call sites of the first (shader-based) HeroGlobe
component: albedo and clouds, neither with an `onError` callback. -/
def firstGlobeLoads : List TextureLoad :=
  [⟨"albedo", "/textures/earth_albedo.png", FallbackBehaviour.silent⟩,
   ⟨"clouds", "/textures/clouds.jpg", FallbackBehaviour.silent⟩]

/-- The `loader.load` call sites of the second HeroGlobe component: map with
a warning, bump falling back to bathymetry then a warning, night lights with
a warning, clouds falling back to a procedural texture with a warning. -/
def secondGlobeLoads : List TextureLoad :=
  [⟨"map", "/textures/earth-blue-marble.jpg",
    FallbackBehaviour.warn "[HeroGlobe] Missing /textures/earth-blue-marble.jpg"⟩,
   ⟨"bump", "/textures/earth_bump.jpg",
    FallbackBehaviour.tryNext "/textures/ne_bathy.png"
      (FallbackBehaviour.warn
        "[HeroGlobe] Missing /textures/earth_bump.jpg and /textures/ne_bathy.png")⟩,
   ⟨"nightLights", "/textures/night_lights.png",
    FallbackBehaviour.warn
      "[HeroGlobe] Missing /textures/night_lights.png (night lights disabled)"⟩,
   ⟨"clouds", "/textures/clouds.png",
    FallbackBehaviour.warnProcedural
      "[HeroGlobe] Missing /textures/clouds.png, generating procedural clouds"⟩]

/-- Availability predicate: no asset resolves. -/
def noAssets : String → Bool := fun _ => false

/-- Availability predicate: only the bathymetry fallback asset resolves. -/
def bathyOnly : String → Bool := fun u => u == "/textures/ne_bathy.png"


/-! ## Supporting lemmas -/

/-- A valid code point round-trips through Char.ofNat. -/
theorem charToNat_ofNat_valid (n : Nat) (h : n.isValidChar) :
    (Char.ofNat n).toNat = n := by
  rw [Char.ofNat, dif_pos h]
  rfl

/-- Lowercasing an ASCII uppercase letter shifts its code point by 32. -/
theorem jsCharToLower_of_upper {c : Char} (h1 : 65 ≤ c.toNat) (h2 : c.toNat ≤ 90) :
    jsCharToLower c = Char.ofNat (c.toNat + 32) := by
  unfold jsCharToLower
  have h : (decide (65 ≤ c.toNat) && decide (c.toNat ≤ 90)) = true := by
    simp [h1, h2]
  simp [h]

/-- Lowercasing fixes every character outside the ASCII uppercase range. -/
theorem jsCharToLower_of_not_upper {c : Char}
    (h : ¬(65 ≤ c.toNat ∧ c.toNat ≤ 90)) : jsCharToLower c = c := by
  unfold jsCharToLower
  have hb : (decide (65 ≤ c.toNat) && decide (c.toNat ≤ 90)) = false := by
    rw [Bool.and_eq_false_iff]
    rcases Decidable.not_and_iff_or_not.mp h with h1 | h1
    · exact Or.inl (by simpa using h1)
    · exact Or.inr (by simpa using h1)
  simp [hb]

/-- Code point of a lowercased character. -/
theorem jsCharToLower_toNat (c : Char) :
    (jsCharToLower c).toNat =
      if 65 ≤ c.toNat ∧ c.toNat ≤ 90 then c.toNat + 32 else c.toNat := by
  by_cases h : 65 ≤ c.toNat ∧ c.toNat ≤ 90
  · rw [if_pos h, jsCharToLower_of_upper h.1 h.2,
      charToNat_ofNat_valid _ (Or.inl (by omega))]
  · rw [if_neg h, jsCharToLower_of_not_upper h]

/-- Lowercasing is idempotent. -/
theorem jsCharToLower_idem (c : Char) :
    jsCharToLower (jsCharToLower c) = jsCharToLower c := by
  by_cases h : 65 ≤ c.toNat ∧ c.toNat ≤ 90
  · apply jsCharToLower_of_not_upper
    rw [jsCharToLower_toNat, if_pos h]
    omega
  · rw [jsCharToLower_of_not_upper h, jsCharToLower_of_not_upper h]

/-- No code point in the range 33-159 is JS whitespace. -/
theorem jsIsWhitespace_eq_false {c : Char} (h1 : 33 ≤ c.toNat)
    (h2 : c.toNat ≤ 159) : jsIsWhitespace c = false := by
  rw [Bool.eq_false_iff]
  intro hw
  simp only [jsIsWhitespace, Bool.or_eq_true, Bool.and_eq_true, beq_iff_eq,
    decide_eq_true_eq] at hw
  omega

/-- Lowercasing does not change whether a character is JS whitespace. -/
theorem jsIsWhitespace_jsCharToLower (c : Char) :
    jsIsWhitespace (jsCharToLower c) = jsIsWhitespace c := by
  by_cases h : 65 ≤ c.toNat ∧ c.toNat ≤ 90
  · have ht : (jsCharToLower c).toNat = c.toNat + 32 := by
      rw [jsCharToLower_toNat, if_pos h]
    rw [jsIsWhitespace_eq_false (by omega) (by omega),
      jsIsWhitespace_eq_false (by omega) (by omega)]
  · rw [jsCharToLower_of_not_upper h]

/-- dropWhile is the identity when no element satisfies the predicate. -/
theorem dropWhile_eq_self_of {p : Char → Bool} {l : List Char}
    (h : ∀ c ∈ l, p c = false) : l.dropWhile p = l := by
  cases l with
  | nil => rfl
  | cons a as =>
    rw [List.dropWhile_cons]
    simp [h a (List.mem_cons_self a as)]

/-- Trimming a list with no JS whitespace is the identity. -/
theorem jsTrimList_eq_self {l : List Char}
    (h : ∀ c ∈ l, jsIsWhitespace c = false) : jsTrimList l = l := by
  unfold jsTrimList
  rw [dropWhile_eq_self_of h]
  rw [dropWhile_eq_self_of (fun c hc => h c (List.mem_reverse.mp hc))]
  exact List.reverse_reverse l

/-- Rebuilding a string from its character list gives the string back. -/
theorem stringMk_toList (s : String) : String.mk s.toList = s := rfl

/-- Trimming a string with no JS whitespace is the identity. -/
theorem jsTrim_eq_self {s : String}
    (h : ∀ c ∈ s.toList, jsIsWhitespace c = false) : jsTrim s = s := by
  unfold jsTrim
  rw [jsTrimList_eq_self h]
  exact stringMk_toList s

/-- Character list of a rebuilt string. -/
theorem toList_mk (l : List Char) : (String.mk l).toList = l := rfl

/-- String lowercasing is idempotent. -/
theorem jsToLowerCase_idem (s : String) :
    jsToLowerCase (jsToLowerCase s) = jsToLowerCase s := by
  unfold jsToLowerCase
  rw [toList_mk, List.map_map]
  congr 1
  apply List.map_congr_left
  intro a _
  exact jsCharToLower_idem a

/-- getD at an in-bounds index is the indexed element. -/
theorem getD_eq_getElem_char {l : List Char} {n : Nat} (h : n < l.length) :
    l.getD n ' ' = l[n] := by
  rw [List.getD_eq_getElem?_getD, List.getElem?_eq_getElem h, Option.getD_some]

/-- A list accepted by the email regex contains no JS whitespace. -/
theorem emailMatchList_nonws {l : List Char} (h : emailMatchList l = true) :
    ∀ c ∈ l, jsIsWhitespace c = false := by
  unfold emailMatchList at h
  rw [Bool.and_eq_true] at h
  intro c hc
  have hb := List.all_eq_true.mp h.1 c hc
  simpa using hb

/-- The email regex accepts exactly the whitespace-free lists that factor as
a nonempty part, an at-sign, a nonempty part, a dot and a nonempty part. -/
theorem emailMatchList_iff (l : List Char) :
    emailMatchList l = true ↔
      ∃ x y z : List Char, l = x ++ '@' :: (y ++ '.' :: z) ∧
        x ≠ [] ∧ y ≠ [] ∧ z ≠ [] ∧ ∀ c ∈ l, jsIsWhitespace c = false := by
  constructor
  · intro h
    have hall := emailMatchList_nonws h
    unfold emailMatchList at h
    rw [Bool.and_eq_true] at h
    obtain ⟨-, hany⟩ := h
    simp only [List.any_eq_true, List.mem_range, Bool.and_eq_true,
      decide_eq_true_eq, beq_iff_eq] at hany
    obtain ⟨i, hi, j, hj, ⟨⟨⟨h1i, hij⟩, hjl⟩, hat⟩, hdot⟩ := hany
    have hiL : i < l.length := by omega
    have hjL : j < l.length := by omega
    rw [getD_eq_getElem_char hiL] at hat
    rw [getD_eq_getElem_char hjL] at hdot
    have e1 : l = l.take i ++ l.drop i := (List.take_append_drop i l).symm
    have e2 : l.drop i = l[i] :: l.drop (i + 1) :=
      List.drop_eq_getElem_cons hiL
    have e3 : l.drop (i + 1) =
        (l.drop (i + 1)).take (j - (i + 1)) ++
          (l.drop (i + 1)).drop (j - (i + 1)) :=
      (List.take_append_drop (j - (i + 1)) (l.drop (i + 1))).symm
    have e4 : (l.drop (i + 1)).drop (j - (i + 1)) = l.drop j := by
      rw [List.drop_drop]
      congr 1
      omega
    have e5 : l.drop j = l[j] :: l.drop (j + 1) :=
      List.drop_eq_getElem_cons hjL
    refine ⟨l.take i, (l.drop (i + 1)).take (j - (i + 1)), l.drop (j + 1),
      ?_, ?_, ?_, ?_, hall⟩
    · conv_lhs => rw [e1, e2, hat, e3, e4, e5, hdot]
    · apply List.ne_nil_of_length_pos
      rw [List.length_take]
      omega
    · apply List.ne_nil_of_length_pos
      rw [List.length_take, List.length_drop]
      omega
    · apply List.ne_nil_of_length_pos
      rw [List.length_drop]
      omega
  · rintro ⟨x, y, z, rfl, hx, hy, hz, hall⟩
    have hx1 : 1 ≤ x.length := List.length_pos.mpr hx
    have hy1 : 1 ≤ y.length := List.length_pos.mpr hy
    have hz1 : 1 ≤ z.length := List.length_pos.mpr hz
    have hL : (x ++ '@' :: (y ++ '.' :: z)).length =
        x.length + 1 + y.length + 1 + z.length := by
      simp only [List.length_append, List.length_cons]
      omega
    unfold emailMatchList
    rw [Bool.and_eq_true]
    refine ⟨List.all_eq_true.mpr fun c hc => by simpa using hall c hc, ?_⟩
    simp only [List.any_eq_true, List.mem_range, Bool.and_eq_true,
      decide_eq_true_eq, beq_iff_eq]
    refine ⟨x.length, by rw [hL]; omega, x.length + 1 + y.length,
      by rw [hL]; omega,
      ⟨⟨⟨by omega, by omega⟩, by rw [hL]; omega⟩, ?_⟩, ?_⟩
    · rw [List.getD_eq_getElem?_getD,
        List.getElem?_append_right (Nat.le_refl x.length)]
      simp
    · rw [List.getD_eq_getElem?_getD]
      rw [show x ++ '@' :: (y ++ '.' :: z) = (x ++ '@' :: y) ++ '.' :: z from
        by simp]
      rw [List.getElem?_append_right
        (show (x ++ '@' :: y).length ≤ x.length + 1 + y.length from by
          simp only [List.length_append, List.length_cons]
          omega)]
      have hz0 : x.length + 1 + y.length - (x ++ '@' :: y).length = 0 := by
        simp only [List.length_append, List.length_cons]
        omega
      rw [hz0]
      simp

/-- Lowercasing preserves acceptance by the email regex. -/
theorem emailMatchList_map_toLower {l : List Char}
    (h : emailMatchList l = true) :
    emailMatchList (l.map jsCharToLower) = true := by
  rw [emailMatchList_iff] at h ⊢
  obtain ⟨x, y, z, heq, hx, hy, hz, hall⟩ := h
  refine ⟨x.map jsCharToLower, y.map jsCharToLower, z.map jsCharToLower,
    ?_, ?_, ?_, ?_, ?_⟩
  · rw [heq]
    simp only [List.map_append, List.map_cons]
    rw [show jsCharToLower '@' = '@' from by decide,
      show jsCharToLower '.' = '.' from by decide]
  · simp [hx]
  · simp [hy]
  · simp [hz]
  · intro c hc
    rw [List.mem_map] at hc
    obtain ⟨a, ha, rfl⟩ := hc
    exact (jsIsWhitespace_jsCharToLower a).trans (hall a ha)

/-- A string accepted by the email regex is still accepted after the
handler-side normalization (trim, then lowercase). -/
theorem matchesEmailRegex_normalize {s : String}
    (h : matchesEmailRegex s = true) :
    matchesEmailRegex (jsToLowerCase (jsTrim s)) = true := by
  have hnw : ∀ c ∈ s.toList, jsIsWhitespace c = false := emailMatchList_nonws h
  rw [jsTrim_eq_self hnw]
  unfold matchesEmailRegex jsToLowerCase
  rw [toList_mk]
  exact emailMatchList_map_toLower h

/-! ## The claims -/

/-- Claim C1: for every POST /api/waitlist request, if the email (after the
handler normalization trim-and-lowercase, or already in the raw body) passes
the validation regex, the handler returns the success body with ok true and a
message string; if the email is absent, empty after trimming, or fails the
regex, the handler throws an error with statusCode 400. -/
theorem waitlist_valid_email_ok_invalid_400 (body : Option WaitlistBody)
    (requestIP : Option String) (now : String) (st : List Submission) :
    (∀ e, normalizedEmail body = some e → matchesEmailRegex e = true →
      (waitlistHandler body requestIP now st).2 =
        Except.ok ⟨true, "Thanks! We will be in touch soon."⟩) ∧
    (∀ raw, body.bind (fun b => b.email) = some raw →
      matchesEmailRegex raw = true →
      (waitlistHandler body requestIP now st).2 =
        Except.ok ⟨true, "Thanks! We will be in touch soon."⟩) ∧
    ((normalizedEmail body = none ∨
      (∃ e, normalizedEmail body = some e ∧
        (e = "" ∨ matchesEmailRegex e = false))) →
      ∃ err, (waitlistHandler body requestIP now st).2 = Except.error err ∧
        err.statusCode = 400) := by
  have hok : ∀ e, normalizedEmail body = some e → matchesEmailRegex e = true →
      (waitlistHandler body requestIP now st).2 =
        Except.ok ⟨true, "Thanks! We will be in touch soon."⟩ := by
    intro e he hm
    by_cases h0 : e = ""
    · subst h0
      exact absurd hm (by decide)
    · simp [waitlistHandler, he, h0, hm]
  refine ⟨hok, ?_, ?_⟩
  · intro raw hraw hm
    have hne : normalizedEmail body = some (jsToLowerCase (jsTrim raw)) := by
      unfold normalizedEmail
      rw [hraw]
      rfl
    exact hok _ hne (matchesEmailRegex_normalize hm)
  · intro h
    rcases h with h | ⟨e, he, hbad⟩
    · exact ⟨⟨400, "Invalid email", "Invalid email"⟩,
        by simp [waitlistHandler, h], rfl⟩
    · rcases hbad with h0 | hm
      · subst h0
        exact ⟨⟨400, "Invalid email", "Invalid email"⟩,
          by simp [waitlistHandler, he], rfl⟩
      · refine ⟨⟨400, "Invalid email", "Invalid email"⟩, ?_, rfl⟩
        by_cases h0 : e = ""
        · subst h0
          simp [waitlistHandler, he]
        · simp [waitlistHandler, he, h0, hm]

/-- Witness for claim C1 at two concrete requests. -/
theorem waitlist_valid_email_ok_invalid_400_witness :
    (waitlistHandler (some ⟨some "USER@Example.com", none⟩) none "t" []).2 =
      Except.ok ⟨true, "Thanks! We will be in touch soon."⟩ ∧
    (∃ err, (waitlistHandler (some ⟨some "not-an-email", none⟩) none "t" []).2 =
      Except.error err ∧ err.statusCode = 400) :=
  ⟨(waitlist_valid_email_ok_invalid_400 (some ⟨some "USER@Example.com", none⟩)
      none "t" []).2.1 "USER@Example.com" (by decide) (by decide),
   (waitlist_valid_email_ok_invalid_400 (some ⟨some "not-an-email", none⟩)
      none "t" []).2.2
     (Or.inr ⟨"not-an-email", by decide, Or.inr (by decide)⟩)⟩

/-- Counterexample to claim C2 as stated: the request with email address
a@b@c.d is accepted by the waitlist endpoint although the address contains
two at-signs, because the backslash-S class of the validation regex itself
matches at-signs. -/
theorem email_regex_double_at_accepted :
    (waitlistHandler (some ⟨some "a@b@c.d", none⟩) none
        "2024-01-01T00:00:00.000Z" []).2 =
      Except.ok ⟨true, "Thanks! We will be in touch soon."⟩ ∧
    ("a@b@c.d".toList.count '@') = 2 := by
  decide

/-- Claim C2 (amended): the waitlist validation accepts exactly the
whitespace-free strings that factor as x @ y . z with x, y, z nonempty, so
every accepted string contains at least one at-sign followed by a dot, but
not necessarily exactly one at-sign. -/
theorem email_regex_characterization (s : String) :
    matchesEmailRegex s = true ↔
      ∃ x y z : List Char, s.toList = x ++ '@' :: (y ++ '.' :: z) ∧
        x ≠ [] ∧ y ≠ [] ∧ z ≠ [] ∧ ∀ c ∈ s.toList, jsIsWhitespace c = false :=
  emailMatchList_iff s.toList

/-- Counterexample to claim C3 as stated: a session cookie present with the
empty-string value yields authenticated false, because the handler tests JS
truthiness of the cookie value, not presence. -/
theorem auth_status_empty_cookie_unauthenticated :
    ((some "" : Option String).isSome = true) ∧
    (authStatusHandler (some "")).authenticated = false := by
  decide

/-- Claim C3 (amended): the authenticated field is true iff a session cookie
is present with a nonempty value. -/
theorem auth_status_authenticated_iff_nonempty_cookie
    (session : Option String) :
    (authStatusHandler session).authenticated = true ↔
      ∃ v, session = some v ∧ v ≠ "" := by
  cases session with
  | none => simp [authStatusHandler, jsTruthy]
  | some v =>
    by_cases h : v = ""
    · subst h
      simp [authStatusHandler, jsTruthy]
    · simp [authStatusHandler, jsTruthy, h]

/-- Counterexample to claim C4 as stated: a request carrying an ab_variant
cookie with the empty-string value still triggers a cookie write, because the
middleware tests JS truthiness of the cookie value, not presence. -/
theorem ab_empty_value_cookie_rewritten :
    abVariantMiddleware (some "") true =
      some ⟨"ab_variant", "A", ⟨false, "lax", "/", 31536000⟩⟩ := by
  decide

/-- Claim C4 (amended): for every request carrying an ab_variant cookie with
a nonempty value — in particular the values A and B the middleware itself
assigns — no cookie write is performed, so repeated invocations never change
an assigned variant. -/
theorem ab_nonempty_cookie_no_write (v : String) (roll : Bool)
    (h : v ≠ "") : abVariantMiddleware (some v) roll = none := by
  simp [abVariantMiddleware, jsTruthy, h]

/-- Witness for claim C4 at the two assigned variants. -/
theorem ab_nonempty_cookie_no_write_witness :
    abVariantMiddleware (some "A") true = none ∧
    abVariantMiddleware (some "B") false = none :=
  ⟨ab_nonempty_cookie_no_write "A" true (by decide),
   ab_nonempty_cookie_no_write "B" false (by decide)⟩

/-- Claim C5: on a request without an ab_variant cookie, the middleware sets
an ab_variant cookie whose value is A or B, with maxAge one year (60*60*24*365
= 31536000 seconds) and path "/". -/
theorem ab_first_visit_sets_year_cookie (roll : Bool) :
    ∃ c, abVariantMiddleware none roll = some c ∧
      c.name = "ab_variant" ∧ (c.value = "A" ∨ c.value = "B") ∧
      c.options.maxAge = 60 * 60 * 24 * 365 ∧ c.options.maxAge = 31536000 ∧
      c.options.path = "/" := by
  cases roll with
  | false => exact ⟨_, rfl, rfl, Or.inr rfl, rfl, by decide, rfl⟩
  | true => exact ⟨_, rfl, rfl, Or.inl rfl, rfl, by decide, rfl⟩

/-- Counterexample to claim C6 as stated: a request whose body carries the
variant string C is accepted and stores an entry whose variant is neither A
nor B, because readBody does not validate the body against its declared type
and the handler only applies an unchecked type cast. -/
theorem waitlist_variant_cast_escape :
    (waitlistHandler (some ⟨some "a@b.c", some "C"⟩) none
        "2024-01-01T00:00:00.000Z" []).1 =
      [⟨"a@b.c", "C", "2024-01-01T00:00:00.000Z", none⟩] ∧
    ¬("C" = "A" ∨ "C" = "B") := by
  decide

/-- Claim C6 (amended): every accepted waitlist request appends exactly one
entry — left of it the stored list is unchanged — holding the normalized
email, the body variant defaulted to A when falsy, the timestamp, and the
request IP with the empty string collapsed to absent; the stored variant lies
in the set of A and B whenever the body variant is absent, falsy, or itself A
or B. -/
theorem waitlist_accept_appends_single_entry (body : Option WaitlistBody)
    (requestIP : Option String) (now : String) (st : List Submission)
    (ok : OkResponse)
    (h : (waitlistHandler body requestIP now st).2 = Except.ok ok) :
    ∃ sub : Submission,
      (waitlistHandler body requestIP now st).1 = st ++ [sub] ∧
      normalizedEmail body = some sub.email ∧
      sub.variant = jsOrDefault (body.bind (fun b => b.variant)) "A" ∧
      sub.ts = now ∧
      sub.ip = jsOrUndefined requestIP ∧
      ((body.bind (fun b => b.variant) = none ∨
        body.bind (fun b => b.variant) = some "" ∨
        body.bind (fun b => b.variant) = some "A" ∨
        body.bind (fun b => b.variant) = some "B") →
        (sub.variant = "A" ∨ sub.variant = "B")) := by
  cases hne : normalizedEmail body with
  | none => simp [waitlistHandler, hne] at h
  | some e =>
    by_cases hc : (e == "" || !matchesEmailRegex e) = true
    · simp [waitlistHandler, hne, hc] at h
    · rw [Bool.not_eq_true] at hc
      refine ⟨⟨e, jsOrDefault (body.bind (fun b => b.variant)) "A", now,
        jsOrUndefined requestIP⟩, ?_, rfl, rfl, rfl, rfl, ?_⟩
      · simp [waitlistHandler, hne, hc]
      · intro hv
        rcases hv with hv | hv | hv | hv <;>
          simp [jsOrDefault, hv]

/-- Witness for claim C6 at a concrete accepted request. -/
theorem waitlist_accept_appends_single_entry_witness :
    ∃ sub : Submission,
      (waitlistHandler (some ⟨some "a@b.c", some "B"⟩) (some "") "t" []).1 =
        [] ++ [sub] ∧
      normalizedEmail (some ⟨some "a@b.c", some "B"⟩) = some sub.email ∧
      sub.variant =
        jsOrDefault ((some (⟨some "a@b.c", some "B"⟩ : WaitlistBody)).bind
          (fun b => b.variant)) "A" ∧
      sub.ts = "t" ∧
      sub.ip = jsOrUndefined (some "") ∧
      (((some (⟨some "a@b.c", some "B"⟩ : WaitlistBody)).bind
          (fun b => b.variant) = none ∨
        (some (⟨some "a@b.c", some "B"⟩ : WaitlistBody)).bind
          (fun b => b.variant) = some "" ∨
        (some (⟨some "a@b.c", some "B"⟩ : WaitlistBody)).bind
          (fun b => b.variant) = some "A" ∨
        (some (⟨some "a@b.c", some "B"⟩ : WaitlistBody)).bind
          (fun b => b.variant) = some "B") →
        (sub.variant = "A" ∨ sub.variant = "B")) :=
  waitlist_accept_appends_single_entry (some ⟨some "a@b.c", some "B"⟩)
    (some "") "t" [] ⟨true, "Thanks! We will be in touch soon."⟩ (by decide)

/-- Claim C8: whenever the waitlist handler rejects a request with a 400
error, the submissions list is left exactly as it was, since the error is
thrown before any push. -/
theorem waitlist_error_leaves_submissions_unchanged
    (body : Option WaitlistBody) (requestIP : Option String) (now : String)
    (st : List Submission) (err : ErrorResponse)
    (h : (waitlistHandler body requestIP now st).2 = Except.error err) :
    (waitlistHandler body requestIP now st).1 = st := by
  cases hne : normalizedEmail body with
  | none => simp [waitlistHandler, hne]
  | some e =>
    by_cases hc : (e == "" || !matchesEmailRegex e) = true
    · simp [waitlistHandler, hne, hc]
    · rw [Bool.not_eq_true] at hc
      simp [waitlistHandler, hne, hc] at h

/-- Witness for claim C8 at a concrete rejected request. -/
theorem waitlist_error_leaves_submissions_unchanged_witness :
    (waitlistHandler (some ⟨some "nope", none⟩) none "t"
        [⟨"a@b.c", "A", "t0", none⟩]).1 = [⟨"a@b.c", "A", "t0", none⟩] :=
  waitlist_error_leaves_submissions_unchanged (some ⟨some "nope", none⟩)
    none "t" [⟨"a@b.c", "A", "t0", none⟩] ⟨400, "Invalid email", "Invalid email"⟩
    (by decide)

/-- Claim C9: every entry ever stored in the submissions list has an email
that is trimmed (a trim fixed point), fully lower-cased (a lowercase fixed
point) and matches the validation regex; and the stored variant is A whenever
the request body omitted the variant or gave a falsy one. -/
theorem waitlist_entries_normalized :
    (∀ st, ReachableSubs st → ∀ sub ∈ st,
      jsTrim sub.email = sub.email ∧
      jsToLowerCase sub.email = sub.email ∧
      matchesEmailRegex sub.email = true) ∧
    (∀ (body : Option WaitlistBody) (requestIP : Option String) (now : String)
      (st : List Submission) (sub : Submission),
      (waitlistHandler body requestIP now st).1 = st ++ [sub] →
      jsTruthy (body.bind (fun b => b.variant)) = false →
      sub.variant = "A") := by
  constructor
  · intro st h
    induction h with
    | init => intro sub hs; cases hs
    | step body requestIP now hprev ih =>
      intro sub hs
      rename_i st'
      cases hne : normalizedEmail body with
      | none =>
        rw [show (waitlistHandler body requestIP now st').1 = st' from by
          simp [waitlistHandler, hne]] at hs
        exact ih sub hs
      | some e =>
        by_cases hc : (e == "" || !matchesEmailRegex e) = true
        · rw [show (waitlistHandler body requestIP now st').1 = st' from by
            simp [waitlistHandler, hne, hc]] at hs
          exact ih sub hs
        · rw [Bool.not_eq_true] at hc
          rw [show (waitlistHandler body requestIP now st').1 =
              st' ++ [⟨e, jsOrDefault (body.bind (fun b => b.variant)) "A",
                now, jsOrUndefined requestIP⟩] from by
            simp [waitlistHandler, hne, hc]] at hs
          rcases List.mem_append.mp hs with hmem | hmem
          · exact ih sub hmem
          · have hsub : sub = ⟨e, jsOrDefault (body.bind (fun b => b.variant))
                "A", now, jsOrUndefined requestIP⟩ := by
              simpa using hmem
            subst hsub
            have hm : matchesEmailRegex e = true := by
              rcases Bool.or_eq_false_iff.mp hc with ⟨-, hm⟩
              simpa using hm
            have hraw : ∃ raw, body.bind (fun b => b.email) = some raw ∧
                jsToLowerCase (jsTrim raw) = e := by
              unfold normalizedEmail at hne
              exact Option.map_eq_some'.mp hne
            obtain ⟨raw, -, hrawe⟩ := hraw
            refine ⟨?_, ?_, hm⟩
            · exact jsTrim_eq_self (emailMatchList_nonws hm)
            · rw [← hrawe]
              exact jsToLowerCase_idem (jsTrim raw)
  · intro body requestIP now st sub h hv
    cases hne : normalizedEmail body with
    | none =>
      rw [show (waitlistHandler body requestIP now st).1 = st from by
        simp [waitlistHandler, hne]] at h
      exact absurd (congrArg List.length h) (by simp)
    | some e =>
      by_cases hc : (e == "" || !matchesEmailRegex e) = true
      · rw [show (waitlistHandler body requestIP now st).1 = st from by
          simp [waitlistHandler, hne, hc]] at h
        exact absurd (congrArg List.length h) (by simp)
      · rw [Bool.not_eq_true] at hc
        rw [show (waitlistHandler body requestIP now st).1 =
            st ++ [⟨e, jsOrDefault (body.bind (fun b => b.variant)) "A",
              now, jsOrUndefined requestIP⟩] from by
          simp [waitlistHandler, hne, hc]] at h
        have hsub : sub = ⟨e, jsOrDefault (body.bind (fun b => b.variant))
            "A", now, jsOrUndefined requestIP⟩ := by
          have := List.append_cancel_left h.symm
          simpa using this
        subst hsub
        cases hvv : body.bind (fun b => b.variant) with
        | none => simp [jsOrDefault]
        | some v =>
          rw [hvv] at hv
          have : v = "" := by simpa [jsTruthy] using hv
          subst this
          simp [jsOrDefault]

/-- Witness for claim C9 on a concrete reachable state. -/
theorem waitlist_entries_normalized_witness :
    (jsTrim "a@b.c" = "a@b.c" ∧ jsToLowerCase "a@b.c" = "a@b.c" ∧
      matchesEmailRegex "a@b.c" = true) ∧
    (⟨"a@b.c", "A", "t", none⟩ : Submission).variant = "A" :=
  ⟨waitlist_entries_normalized.1
      (waitlistHandler (some ⟨some " A@B.c ", none⟩) none "t" []).1
      (ReachableSubs.step (some ⟨some " A@B.c ", none⟩) none "t"
        ReachableSubs.init)
      ⟨"a@b.c", "A", "t", none⟩ (by decide),
   waitlist_entries_normalized.2 (some ⟨some " A@B.c ", none⟩) none "t" []
      ⟨"a@b.c", "A", "t", none⟩ (by decide) (by decide)⟩

/-- Claim C10: the auth-status user field is non-null iff the authenticated
field is true, and when authenticated it equals the user_123 object; the two
fields are never inconsistent. -/
theorem auth_status_user_iff_authenticated (session : Option String) :
    ((authStatusHandler session).user ≠ none ↔
      (authStatusHandler session).authenticated = true) ∧
    (authStatusHandler session).user =
      (if (authStatusHandler session).authenticated = true
        then some ⟨"user_123"⟩ else none) := by
  cases session with
  | none => simp [authStatusHandler, jsTruthy]
  | some v =>
    by_cases h : v = ""
    · subst h
      simp [authStatusHandler, jsTruthy]
    · simp [authStatusHandler, jsTruthy, h]

/-- Counterexample to claim C7 as stated: the albedo texture slot of the
first HeroGlobe component has no error callback, so when all candidates fail
no warning is logged. -/
theorem globe_albedo_silent_failure :
    (firstGlobeLoads.contains
      ⟨"albedo", "/textures/earth_albedo.png", FallbackBehaviour.silent⟩)
      = true ∧
    (runLoad noAssets "/textures/earth_albedo.png"
      FallbackBehaviour.silent).warnings = [] := by
  decide

/-- Claim C7 (amended): in the second HeroGlobe component every texture slot
logs a warning when all candidates in its fallback chain fail (the clouds
slot also substituting a procedural texture), and the bump slot falls back to
the bathymetry candidate when only that asset resolves; the two loads of the
first component fail silently, with no warning. -/
theorem globe_texture_fallback_behaviour :
    (firstGlobeLoads.map fun l => runLoad noAssets l.url l.onError) =
      [⟨none, []⟩, ⟨none, []⟩] ∧
    (secondGlobeLoads.map fun l =>
        (runLoad noAssets l.url l.onError).warnings) =
      [["[HeroGlobe] Missing /textures/earth-blue-marble.jpg"],
       ["[HeroGlobe] Missing /textures/earth_bump.jpg and /textures/ne_bathy.png"],
       ["[HeroGlobe] Missing /textures/night_lights.png (night lights disabled)"],
       ["[HeroGlobe] Missing /textures/clouds.png, generating procedural clouds"]] ∧
    (secondGlobeLoads.map fun l => runLoad bathyOnly l.url l.onError) =
      [⟨none, ["[HeroGlobe] Missing /textures/earth-blue-marble.jpg"]⟩,
       ⟨some "/textures/ne_bathy.png", []⟩,
       ⟨none, ["[HeroGlobe] Missing /textures/night_lights.png (night lights disabled)"]⟩,
       ⟨some "procedural",
        ["[HeroGlobe] Missing /textures/clouds.png, generating procedural clouds"]⟩] := by
  decide
